import Mathlib

/-!
Verification of the tiny-excel spreadsheet editor.

This file shallowly embeds the core of the repository:

* `Sheet.getCell`, `Sheet.setCell` and the shared-string interning step
  `_getSharedString` (file `sheet.ts`, shipped inside `src/README.md`),
* `TinyExcel.saveBuffer` (file `src/lib/tiny-excel.ts`).

The worksheet tree manipulated by the source is the object tree produced by
`fast-xml-parser`: a worksheet holds `sheetData.row` (rows), every row holds
`c` (cells) and an `@_r` row number, every cell holds an `@_r` address, an
optional `v` value (a JS number when it is a shared-string offset, a JS
string when it is the text form of a numeric value), an optional formula
field `f` and an optional type marker `@_t`.  The shared-string table is the
list of the `t` texts of `sst.si`.

Two embeddings are given.  The main model (`SheetState`) fixes every
repeated child to a sequence, which is the shape the codec produces for
multi-element documents and the shape on which the source's array
operations are defined.  A second, raw model (`RawState`) keeps the codec's
singular-vs-sequence ambiguity (`OneOrMany`) and models the JavaScript
`TypeError`s that the source raises when an array method or `for..of`
iteration hits a collapsed singleton; `rawSetCell` additionally returns the
mutated-so-far state on failure, so that partial mutation is observable.

JavaScript specifics carried over faithfully:

* `stringTable[cell.v] || null` — indexing an array with a cell value that
  is a *string* resolves iff the string is the canonical decimal form of an
  index (`decodeIndex`), and a resolved empty string is falsy and collapses
  to `null` (`orNull`);
* `Number.prototype.toString` on an integer gives its decimal form
  (`jsNumToString`, built on the fuel-based `decRepr` so that the kernel
  can evaluate it);
* `parseInt(name.match(/\d+/g)![0])` takes the first digit run
  (`parseRowNum`).
-/

namespace TinyExcel

/-- Character test for `[A-Z]` of the source's address regexp (codes 65–90). -/
def isUpperCh (c : Char) : Bool := 65 ≤ c.toNat && c.toNat ≤ 90

/-- Character test for `\d` of the source's address regexp (codes 48–57). -/
def isDigitCh (c : Char) : Bool := 48 ≤ c.toNat && c.toNat ≤ 57

/-- The decimal digit character for a value below ten, as produced by
JavaScript number-to-string conversion. -/
def digitCh (d : Nat) : Char :=
  match d with
  | 0 => '0' | 1 => '1' | 2 => '2' | 3 => '3' | 4 => '4'
  | 5 => '5' | 6 => '6' | 7 => '7' | 8 => '8' | _ => '9'

/-- Little-endian decimal digits of `n`, with explicit fuel so that the
definition is structurally recursive and kernel-computable.  `fuel = n + 1`
always suffices. -/
def toDigitsAux : Nat → Nat → List Char
  | 0, _ => []
  | fuel + 1, n => if n < 10 then [digitCh n] else digitCh (n % 10) :: toDigitsAux fuel (n / 10)

/-- Canonical decimal representation of a natural number, as produced by
JavaScript number-to-string conversion. -/
def decRepr (n : Nat) : String := String.mk (toDigitsAux (n + 1) n).reverse

/-- `Number.prototype.toString` for an integer-valued JS number. -/
def jsNumToString (n : Int) : String :=
  if n < 0 then "-" ++ decRepr n.natAbs else decRepr n.natAbs

/-- Value of a big-endian digit string, as accumulated by a decimal parse. -/
def digitsVal (cs : List Char) : Nat := cs.foldl (fun acc c => acc * 10 + (c.toNat - 48)) 0

/-- JavaScript array-index semantics for a string key: `arr[s]` is an index
access exactly when `s` is the canonical decimal form of an index, i.e. when
re-printing the parsed value gives `s` back. -/
def decodeIndex (s : String) : Option Nat :=
  if decRepr (digitsVal s.data) = s then some (digitsVal s.data) else none

/-! ### The sheet data model (sequence-normalized shape) -/

/-- A JavaScript value of the two dynamic types flowing through `setCell`:
`value: string | number`.  A cell's `v` field also holds one of these (a
number when it is a shared-string offset, a string when `setCell` stored
`value.toString()` of a numeric value). -/
inductive JsVal where
  | str (s : String)
  | num (n : Int)
deriving DecidableEq, Repr

/-- The `type` argument of `setCell`: `"string" | "formula"` (default
`"string"`). -/
inductive SetType where
  | string
  | formula
deriving DecidableEq, Repr

/-- One `c` element of a row: address attribute `@_r`, optional value `v`,
optional formula `f`, optional type-marker attribute `@_t`. -/
structure Cell where
  r : String
  v : Option JsVal := none
  f : Option JsVal := none
  t : Option String := none
deriving DecidableEq, Repr

/-- One `row` element of `sheetData`: numeric row attribute `@_r` and the
cell sequence `c`. -/
structure Row where
  r : Int
  c : List Cell
deriving DecidableEq, Repr

/-- The state a `Sheet` instance reads and mutates: the worksheet's
`sheetData.row` sequence and the shared-string texts `sst.si[*].t`. -/
structure SheetState where
  rows : List Row
  sst : List String
deriving DecidableEq, Repr

/-- The address check `cell_name.match(/^[A-Z]+\d+$/)`: one or more
uppercase letters followed by one or more decimal digits, nothing else. -/
def validName (s : String) : Bool :=
  let letters := s.data.takeWhile isUpperCh
  let rest := s.data.dropWhile isUpperCh
  !letters.isEmpty && !rest.isEmpty && rest.all isDigitCh

/-- `parseInt(cell_name.match(/\d+/g)![0])`: the value of the first digit
run of the name (for a valid name, its digit suffix). -/
def parseRowNum (s : String) : Int :=
  Int.ofNat (digitsVal ((s.data.dropWhile (fun c => !isDigitCh c)).takeWhile isDigitCh))

/-- `stringTable[cell.v]` — JavaScript array indexing with a dynamic key.
A numeric key is an in-range access or `undefined`; a string key resolves
only if it is the canonical decimal form of an index (`decodeIndex`); an
absent `v` (`stringTable[undefined]`) is `undefined`. -/
def jsIndexLookup (table : List String) : Option JsVal → Option String
  | none => none
  | some (JsVal.num n) => if n < 0 then none else table[n.toNat]?
  | some (JsVal.str s) =>
    match decodeIndex s with
    | some k => table[k]?
    | none => none

/-- `x || null` for a string-or-undefined `x`: the empty string is falsy
and collapses to `null`. -/
def orNull : Option String → Option String
  | some s => if s = "" then none else some s
  | none => none

/-- The nested loop of `getCell`: scan rows in order and return the first
cell whose `@_r` equals the requested name. -/
def findCellRows : List Row → String → Option Cell
  | [], _ => none
  | row :: rest, name =>
    match row.c.find? (fun c => c.r == name) with
    | some c => some c
    | none => findCellRows rest name

/-- The body of `getCell` after validation: resolve the first matching
cell's `v` through the shared-string table, collapsing falsy results. -/
def getCellVal (st : SheetState) (name : String) : Option String :=
  match findCellRows st.rows name with
  | some c => orNull (jsIndexLookup st.sst c.v)
  | none => none

/-- `Sheet.getCell`: throw on an invalid name, otherwise scan for the cell
and resolve it (absence is `null`, not an error). -/
def getCell (st : SheetState) (cell_name : String) : Except String (Option String) :=
  if !validName cell_name then Except.error "Invalid cell name"
  else Except.ok (getCellVal st cell_name)

/-- `stringTable.indexOf(value)`: index of the first equal entry. -/
def indexOfFirst (l : List String) (a : String) : Option Nat :=
  match l with
  | [] => none
  | b :: t => if b == a then some 0 else (indexOfFirst t a).map (· + 1)

/-- `Sheet._getSharedString(old_value, value)`: if `old_value` occurs,
overwrite the first occurrence in place and return its offset; otherwise
append `value` and return the new last offset.  Returns the offset together
with the updated table. -/
def getSharedString (sst : List String) (old_value value : String) : Nat × List String :=
  match indexOfFirst sst old_value with
  | some index => (index, sst.set index value)
  | none => (sst.length, sst ++ [value])

/-- Mutate the first cell of the list whose `@_r` equals `name` (the
purified form of mutating through the reference `target.c.find(...)`
returns). -/
def updateFirstCell (cs : List Cell) (name : String) (f : Cell → Cell) : List Cell :=
  match cs with
  | [] => []
  | c :: rest => if c.r == name then f c :: rest else c :: updateFirstCell rest name f

/-- Mutate, inside the first row containing a cell addressed `name`, that
first matching cell (the purified form of mutating through the references
`sheetData.find(...)` and `target.c.find(...)` return). -/
def updateFirstRow (rows : List Row) (name : String) (f : Cell → Cell) : List Row :=
  match rows with
  | [] => []
  | row :: rest =>
    if row.c.any (fun c => c.r == name) then
      { row with c := updateFirstCell row.c name f } :: rest
    else
      row :: updateFirstRow rest name f

/-- The row-search predicate of `setCell`: some row contains a cell whose
`@_r` equals the name. -/
def rowsContainCell (rows : List Row) (name : String) : Bool :=
  rows.any (fun row => row.c.any (fun c => c.r == name))

/-- The structural phase of `setCell`: the source locates the target row
with `sheetData.find(row => cells.some(cell => cell['@_r'] === cell_name))`
and, when no such row exists, pushes a fresh row `{ "@_r": parseInt(...),
c: [] }` and then pushes the fresh cell `{ "@_r": cell_name }` into it.
When the target row *was* found, `target.c.find(...)` necessarily succeeds
(the row was selected because such a cell exists), so the fresh-cell push
happens exactly in the fresh-row case, as encoded here. -/
def rows1Of (st : SheetState) (cell_name : String) : List Row :=
  if rowsContainCell st.rows cell_name then st.rows
  else st.rows ++ [{ r := parseRowNum cell_name, c := [{ r := cell_name }] }]

/-- `currentValue = this.getCell(cell_name) || ""`, read on the tree after
the structural phase and before the value mutation, as in the source. -/
def curOf (st : SheetState) (cell_name : String) : String :=
  (getCellVal { rows := rows1Of st cell_name, sst := st.sst } cell_name).getD ""

/-- The formula branch of `setCell` on the target cell:
`targetCell.f = value; delete targetCell.v; delete targetCell["@_t"]`. -/
def formulaMut (value : JsVal) (c : Cell) : Cell :=
  { c with f := some value, v := none, t := none }

/-- The numeric branch of `setCell` on the target cell:
`targetCell.v = value.toString(); delete targetCell["@_t"]` — the formula
field is left untouched. -/
def numMut (n : Int) (c : Cell) : Cell :=
  { c with v := some (JsVal.str (jsNumToString n)), t := none }

/-- The string branch of `setCell` on the target cell:
`targetCell.v = stringIndex; targetCell["@_t"] = "s"` — the formula field
is left untouched. -/
def strMut (i : Nat) (c : Cell) : Cell :=
  { c with v := some (JsVal.num (Int.ofNat i)), t := some "s" }

/-- `Sheet.setCell`: validate, run the structural phase (`rows1Of`), read
`currentValue` (`curOf`), then mutate the first matching cell of the first
matching row through the branch mutator (`formulaMut` / `numMut` /
`strMut`), the string branch interning through `_getSharedString`. -/
def setCell (st : SheetState) (cell_name : String) (value : JsVal) (ty : SetType) :
    Except String SheetState :=
  if !validName cell_name then Except.error "Invalid cell name"
  else
    let rows1 := rows1Of st cell_name
    let cur := curOf st cell_name
    match ty, value with
    | SetType.formula, _ =>
      Except.ok { rows := updateFirstRow rows1 cell_name (formulaMut value), sst := st.sst }
    | SetType.string, JsVal.num n =>
      Except.ok { rows := updateFirstRow rows1 cell_name (numMut n), sst := st.sst }
    | SetType.string, JsVal.str s =>
      let res := getSharedString st.sst cur s
      Except.ok { rows := updateFirstRow rows1 cell_name (strMut res.1), sst := res.2 }

/-! ### The raw tree shape: singular-vs-sequence ambiguity

`fast-xml-parser` collapses a child element occurring once to a bare value
and represents a repeated child as an array.  The raw model keeps that
ambiguity and models the JavaScript `TypeError`s the source raises when an
array method (`find`, `map`, `push`) or a `for..of` iteration hits a
collapsed singleton. -/

/-- A child of the parsed tree that is either a collapsed single value or a
sequence. -/
inductive OneOrMany (α : Type) where
  | one : α → OneOrMany α
  | many : List α → OneOrMany α
deriving DecidableEq, Repr

/-- A row whose cell child may be collapsed. -/
structure RawRow where
  r : Int
  c : OneOrMany Cell
deriving DecidableEq, Repr

/-- A sheet state whose row sequence and shared-string entry list may be
collapsed. -/
structure RawState where
  rows : OneOrMany RawRow
  si : OneOrMany String
deriving DecidableEq, Repr

/-- The failures a `Sheet` call surfaces: the explicit
`Error("Invalid cell name")` and the implicit `TypeError` from using an
array operation on a non-array. -/
inductive JsErr where
  | invalidCell
  | typeError
deriving DecidableEq, Repr

/-- `Array.isArray(row.c) ? row.c : [row.c]` — the one normalization the
source performs. -/
def normCells : OneOrMany Cell → List Cell
  | OneOrMany.one c => [c]
  | OneOrMany.many cs => cs

/-- Normalize a raw row into the sequence-shaped model. -/
def normRow (row : RawRow) : Row := { r := row.r, c := normCells row.c }

/-- The nested loop of `getCell` on raw rows: within each row the cell list
is normalized by `Array.isArray(row.c) ? row.c : [row.c]`. -/
def rawFindCell : List RawRow → String → Option Cell
  | [], _ => none
  | row :: rest, name =>
    match (normCells row.c).find? (fun c => c.r == name) with
    | some c => some c
    | none => rawFindCell rest name

/-- `Sheet.getCell` on the raw tree.  After validation the source computes
`this._stringTable.sst.si.map(si => si.t)` (a `TypeError` when `si` is a
collapsed singleton), then iterates `for (const row of sheetData)` (a
`TypeError` when the row child is a collapsed singleton, since a plain
object is not iterable); each row's cells are normalized. -/
def rawGetCell (st : RawState) (cell_name : String) : Except JsErr (Option String) :=
  if !validName cell_name then Except.error JsErr.invalidCell
  else
    match st.si with
    | OneOrMany.one _ => Except.error JsErr.typeError
    | OneOrMany.many tbl =>
      match st.rows with
      | OneOrMany.one _ => Except.error JsErr.typeError
      | OneOrMany.many rows =>
        Except.ok
          (match rawFindCell rows cell_name with
           | some c => orNull (jsIndexLookup tbl c.v)
           | none => none)

/-- Write `f` over the cell at position `ci` of the row at position `ri`
(the purified form of mutating the object `targetCell` refers to).  Out of
range or collapsed positions are left unchanged; the callers only use
positions established by the preceding search. -/
def setCellAt (rows : List RawRow) (ri ci : Nat) (f : Cell → Cell) : List RawRow :=
  match rows[ri]? with
  | some row =>
    match row.c with
    | OneOrMany.many cs =>
      match cs[ci]? with
      | some c => rows.set ri { row with c := OneOrMany.many (cs.set ci (f c)) }
      | none => rows
    | OneOrMany.one _ => rows
  | none => rows

/-- The tail of `rawSetCell` once the target position `(ri, ci)` inside
`rows1` is fixed: read `currentValue = this.getCell(cell_name) || ""`
(propagating its `TypeError`, with the structural phase's mutation already
in the carried state), then run the three value branches; the string branch
re-reads `sst.si` inside `_getSharedString` (again a `TypeError` on a
collapsed singleton). -/
def rawSetCellResolved (st1 : RawState) (rows1 : List RawRow) (ri ci : Nat)
    (cell_name : String) (value : JsVal) (ty : SetType) :
    Except (JsErr × RawState) RawState :=
  match rawGetCell st1 cell_name with
  | Except.error e => Except.error (e, st1)
  | Except.ok curOpt =>
    let cur := curOpt.getD ""
    match ty, value with
    | SetType.formula, _ =>
      Except.ok { rows := OneOrMany.many (setCellAt rows1 ri ci (formulaMut value)),
                  si := st1.si }
    | SetType.string, JsVal.num n =>
      Except.ok { rows := OneOrMany.many (setCellAt rows1 ri ci (numMut n)),
                  si := st1.si }
    | SetType.string, JsVal.str s =>
      match st1.si with
      | OneOrMany.one _ => Except.error (JsErr.typeError, st1)
      | OneOrMany.many tbl =>
        let res := getSharedString tbl cur s
        Except.ok { rows := OneOrMany.many (setCellAt rows1 ri ci (strMut res.1)),
                    si := OneOrMany.many res.2 }

/-- `Sheet.setCell` on the raw tree, with the mutated-so-far state carried
on failure.  `sheetData.find(...)` is a `TypeError` when the row child is
collapsed; the row-search predicate normalizes each row's cells; a found
row with a collapsed cell child makes `target.c.find(...)` a `TypeError`;
when no row matches, a fresh row (then a fresh cell inside it) is pushed
before `currentValue` is read, so a later failure leaves that push behind. -/
def rawSetCell (st : RawState) (cell_name : String) (value : JsVal) (ty : SetType) :
    Except (JsErr × RawState) RawState :=
  if !validName cell_name then Except.error (JsErr.invalidCell, st)
  else
    match st.rows with
    | OneOrMany.one _ => Except.error (JsErr.typeError, st)
    | OneOrMany.many rows =>
      match rows.findIdx? (fun row => (normCells row.c).any (fun c => c.r == cell_name)) with
      | some ri =>
        match rows[ri]? with
        | none => Except.error (JsErr.typeError, st)
        | some row =>
          match row.c with
          | OneOrMany.one _ => Except.error (JsErr.typeError, st)
          | OneOrMany.many cs =>
            match cs.findIdx? (fun c => c.r == cell_name) with
            | some ci => rawSetCellResolved { rows := OneOrMany.many rows, si := st.si }
                rows ri ci cell_name value ty
            | none =>
              let rows1 := rows.set ri { row with c := OneOrMany.many (cs ++ [{ r := cell_name }]) }
              rawSetCellResolved { rows := OneOrMany.many rows1, si := st.si }
                rows1 ri cs.length cell_name value ty
      | none =>
        let rows1 := rows ++
          [{ r := parseRowNum cell_name, c := OneOrMany.many [{ r := cell_name }] }]
        rawSetCellResolved { rows := OneOrMany.many rows1, si := st.si }
          rows1 rows.length 0 cell_name value ty

/-! ### The workbook and `saveBuffer` -/

/-- The `TinyExcel` instance state that `saveBuffer` reads: the unzipped
archive entries (entry name to entry text), the map of loaded sheet trees
keyed by zero-based index (iterated in insertion order, as a JS `Map` is),
and the parsed shared-strings tree.  The tree type and the XML builder are
the external Tree Codec and are kept abstract. -/
structure Workbook (Tree : Type) where
  file : String → Option String
  sheets : List (Nat × Tree)
  sharedStrings : Tree

/-- `this._file[key] = value` — overwrite or add an archive entry. -/
def setEntry (f : String → Option String) (k v : String) : String → Option String :=
  fun q => if q = k then some v else f q

/-- The template literal `xl/worksheets/sheet${index + 1}.xml`. -/
def sheetEntryName (i : Nat) : String :=
  "xl/worksheets/sheet" ++ decRepr (i + 1) ++ ".xml"

/-- `TinyExcel.saveBuffer`: write every loaded sheet's serialized tree over
its worksheet entry, then the serialized shared-string table over its
entry, and hand the whole entry set to the compressor (modeled as the
resulting entry set, per the Archive Adapter contract). -/
def saveBuffer {Tree : Type} (build : Tree → String) (wb : Workbook Tree) :
    String → Option String :=
  setEntry
    (wb.sheets.foldl (fun f p => setEntry f (sheetEntryName p.1) (build p.2)) wb.file)
    "xl/sharedStrings.xml" (build wb.sharedStrings)

/-! ### Decidability plumbing -/

/-- Decidable equality for `Except`, so that concrete runs of the model can
be settled by `decide`. -/
def exceptDecEq {ε α : Type} [DecidableEq ε] [DecidableEq α] :
    DecidableEq (Except ε α) := fun a b =>
  match a, b with
  | Except.error e, Except.error e' =>
    if h : e = e' then Decidable.isTrue (congrArg Except.error h)
    else Decidable.isFalse (fun hc => h (Except.error.inj hc))
  | Except.error _, Except.ok _ => Decidable.isFalse (fun hc => Except.noConfusion hc)
  | Except.ok _, Except.error _ => Decidable.isFalse (fun hc => Except.noConfusion hc)
  | Except.ok a, Except.ok b =>
    if h : a = b then Decidable.isTrue (congrArg Except.ok h)
    else Decidable.isFalse (fun hc => h (Except.ok.inj hc))

instance {ε α : Type} [DecidableEq ε] [DecidableEq α] : DecidableEq (Except ε α) :=
  exceptDecEq

/-- The cell-address grammar of the source's regexp `^[A-Z]+\d+$`, as an
independent proposition: a nonempty run of uppercase letters followed by a
nonempty run of decimal digits and nothing else.  Note the row component is
any digit run — the regexp does not require a positive row number. -/
def matchesCellRegex (s : String) : Prop :=
  ∃ L R : List Char, s.data = L ++ R ∧ L ≠ [] ∧ R ≠ [] ∧
    (∀ c ∈ L, isUpperCh c = true) ∧ (∀ c ∈ R, isDigitCh c = true)

/-! ### Fuel irrelevance and round trip for the decimal printer -/

theorem toDigitsAux_fuel {f₁ f₂ n : Nat} (h₁ : n < f₁) (h₂ : n < f₂) :
    toDigitsAux f₁ n = toDigitsAux f₂ n := by
  induction f₁ using Nat.strong_induction_on generalizing f₂ n with
  | _ f₁ ih =>
    match f₁, f₂ with
    | f₁' + 1, f₂' + 1 =>
      simp only [toDigitsAux]
      by_cases h : n < 10
      · simp [h]
      · simp only [if_neg h]
        have hlt : n / 10 < n := Nat.div_lt_self (by omega) (by omega)
        rw [ih f₁' (Nat.lt_succ_self f₁') (show n / 10 < f₁' by omega)
          (show n / 10 < f₂' by omega)]

theorem toDigitsAux_ne_nil {f n : Nat} (h : n < f) : toDigitsAux f n ≠ [] := by
  match f with
  | f' + 1 =>
    simp only [toDigitsAux]
    by_cases h10 : n < 10 <;> simp [h10]

theorem digitCh_toNat {d : Nat} (h : d < 10) : (digitCh d).toNat = 48 + d := by
  interval_cases d <;> decide

theorem isDigitCh_digitCh {d : Nat} (h : d < 10) : isDigitCh (digitCh d) = true := by
  interval_cases d <;> decide

theorem digitsVal_append_digit (cs : List Char) (c : Char) :
    digitsVal (cs ++ [c]) = digitsVal cs * 10 + (c.toNat - 48) := by
  simp [digitsVal, List.foldl_append]

theorem digitsVal_toDigitsAux (n : Nat) :
    digitsVal (toDigitsAux (n + 1) n).reverse = n := by
  induction n using Nat.strong_induction_on with
  | _ n ih =>
    simp only [toDigitsAux]
    by_cases h : n < 10
    · simp only [if_pos h, List.reverse_cons, List.reverse_nil, List.nil_append]
      simp [digitsVal, digitCh_toNat h]
    · simp only [if_neg h, List.reverse_cons]
      have hlt : n / 10 < n := Nat.div_lt_self (by omega) (by omega)
      rw [toDigitsAux_fuel hlt (Nat.lt_succ_self (n / 10))]
      rw [digitsVal_append_digit, ih (n / 10) hlt,
        digitCh_toNat (Nat.mod_lt n (by omega))]
      omega

theorem digitsVal_decRepr (n : Nat) : digitsVal (decRepr n).data = n := by
  simpa [decRepr] using digitsVal_toDigitsAux n

theorem decodeIndex_decRepr (n : Nat) : decodeIndex (decRepr n) = some n := by
  simp [decodeIndex, digitsVal_decRepr]

theorem decRepr_injective : Function.Injective decRepr := by
  intro a b h
  have := congrArg (fun s => digitsVal s.data) h
  simpa [digitsVal_decRepr] using this

theorem toDigitsAux_all_digits {f n : Nat} (h : n < f) :
    (toDigitsAux f n).all isDigitCh = true := by
  induction f using Nat.strong_induction_on generalizing n with
  | _ f ih =>
    match f with
    | f' + 1 =>
      simp only [toDigitsAux]
      by_cases h10 : n < 10
      · simp only [if_pos h10, List.all_cons, List.all_nil, Bool.and_true]
        exact isDigitCh_digitCh h10
      · have hlt : n / 10 < n := Nat.div_lt_self (by omega) (by omega)
        simp only [if_neg h10, List.all_cons, Bool.and_eq_true]
        exact ⟨isDigitCh_digitCh (Nat.mod_lt n (by omega)), ih f' (by omega) (by omega)⟩

theorem decRepr_ne_nil (n : Nat) : (decRepr n).data ≠ [] := by
  simp only [decRepr]
  intro h
  exact toDigitsAux_ne_nil (Nat.lt_succ_self n) (by simpa using h)

theorem decRepr_length_pos (n : Nat) : 0 < (decRepr n).length := by
  have := decRepr_ne_nil n
  cases hd : (decRepr n).data with
  | nil => exact absurd hd this
  | cons c cs => simp [String.length, hd]

theorem decodeIndex_neg (m : Nat) : decodeIndex ("-" ++ decRepr m) = none := by
  simp only [decodeIndex]
  rw [if_neg]
  intro h
  have hall : ∀ c ∈ (decRepr (digitsVal ("-" ++ decRepr m).data)).data, isDigitCh c = true :=
    List.all_eq_true.mp (by
      simpa [decRepr] using
        @toDigitsAux_all_digits (digitsVal ("-" ++ decRepr m).data + 1)
          (digitsVal ("-" ++ decRepr m).data) (Nat.lt_succ_self _))
  have hmem : '-' ∈ (decRepr (digitsVal ("-" ++ decRepr m).data)).data := by
    rw [h, String.data_append]
    exact List.mem_append.mpr (Or.inl (by decide))
  exact absurd (hall '-' hmem) (by decide)


/-! ### Lemmas about the shared-string table -/

theorem indexOfFirst_lt_length {l : List String} {a : String} {i : Nat}
    (h : indexOfFirst l a = some i) : i < l.length := by
  induction l generalizing i with
  | nil => simp [indexOfFirst] at h
  | cons b t ih =>
    by_cases hb : (b == a) = true
    · simp [indexOfFirst, hb] at h
      simp [← h]
    · simp [indexOfFirst, hb, Option.map_eq_some'] at h
      obtain ⟨j, hj, rfl⟩ := h
      have := ih hj
      simp
      omega

theorem indexOfFirst_getElem? {l : List String} {a : String} {i : Nat}
    (h : indexOfFirst l a = some i) : l[i]? = some a := by
  induction l generalizing i with
  | nil => simp [indexOfFirst] at h
  | cons b t ih =>
    by_cases hb : (b == a) = true
    · simp [indexOfFirst, hb] at h
      have : b = a := by simpa using hb
      simp [← h, this]
    · simp [indexOfFirst, hb, Option.map_eq_some'] at h
      obtain ⟨j, hj, rfl⟩ := h
      simpa using ih hj

theorem set_self_of_getElem? {α : Type} {l : List α} {i : Nat} {a : α}
    (h : l[i]? = some a) : l.set i a = l := by
  induction l generalizing i with
  | nil => simp at h
  | cons b t ih =>
    cases i with
    | zero =>
      simp at h
      simp [h]
    | succ j =>
      simp at h
      simp [ih h]

/-- The offset returned by `_getSharedString` resolves, in the updated
table, to the new value. -/
theorem getSharedString_resolve (sst : List String) (old v : String) :
    (getSharedString sst old v).2[(getSharedString sst old v).1]? = some v := by
  cases h : indexOfFirst sst old with
  | some i =>
    simp only [getSharedString, h]
    exact List.getElem?_set_self (indexOfFirst_lt_length h)
  | none =>
    simp only [getSharedString, h]
    exact List.getElem?_concat_length sst v

/-! ### Lemmas about the find/update loops -/

theorem find?_updateFirstCell_self {name : String} {f : Cell → Cell}
    (hf : ∀ c, (f c).r = c.r) {cs : List Cell}
    (h : cs.any (fun c => c.r == name) = true) :
    ∃ c, cs.find? (fun c => c.r == name) = some c ∧
      (updateFirstCell cs name f).find? (fun c => c.r == name) = some (f c) := by
  induction cs with
  | nil => simp at h
  | cons c rest ih =>
    by_cases hc : (c.r == name) = true
    · refine ⟨c, ?_, ?_⟩
      · simp only [List.find?, hc]
      · have hupd : updateFirstCell (c :: rest) name f = f c :: rest := by
          simp [updateFirstCell, hc]
        rw [hupd]
        simp only [List.find?, hf, hc]
    · have hb : (c.r == name) = false := by
        cases hcb : (c.r == name) with
        | true => exact absurd hcb hc
        | false => rfl
      have hrest : rest.any (fun c => c.r == name) = true := by
        rw [List.any_cons, hb] at h
        simpa using h
      obtain ⟨c₀, h1, h2⟩ := ih hrest
      have hupd : updateFirstCell (c :: rest) name f = c :: updateFirstCell rest name f := by
        simp [updateFirstCell, hc]
      refine ⟨c₀, ?_, ?_⟩
      · simp only [List.find?, hb, h1]
      · rw [hupd]
        simp only [List.find?, hb, h2]

theorem find?_updateFirstCell_ne {name name' : String} (hne : name' ≠ name)
    {f : Cell → Cell} (hf : ∀ c, (f c).r = c.r) (cs : List Cell) :
    (updateFirstCell cs name f).find? (fun c => c.r == name') =
      cs.find? (fun c => c.r == name') := by
  induction cs with
  | nil => rfl
  | cons c rest ih =>
    by_cases hc : (c.r == name) = true
    · have hupd : updateFirstCell (c :: rest) name f = f c :: rest := by
        simp [updateFirstCell, hc]
      rw [hupd]
      by_cases hc' : (c.r == name') = true
      · exact absurd (by
          have e1 : c.r = name := by simpa using hc
          have e2 : c.r = name' := by simpa using hc'
          rw [← e1, e2]) hne.symm
      · have hb' : (c.r == name') = false := by
          cases hcb : (c.r == name') with
          | true => exact absurd hcb hc'
          | false => rfl
        simp only [List.find?, hf, hb']
    · have hupd : updateFirstCell (c :: rest) name f = c :: updateFirstCell rest name f := by
        simp [updateFirstCell, hc]
      rw [hupd]
      by_cases hc' : (c.r == name') = true
      · simp only [List.find?, hc']
      · have hb' : (c.r == name') = false := by
          cases hcb : (c.r == name') with
          | true => exact absurd hcb hc'
          | false => rfl
        simp only [List.find?, hb']
        exact ih

theorem findCellRows_updateFirstRow_self {name : String} {f : Cell → Cell}
    (hf : ∀ c, (f c).r = c.r) {rows : List Row}
    (h : rowsContainCell rows name = true) :
    ∃ c, findCellRows rows name = some c ∧
      findCellRows (updateFirstRow rows name f) name = some (f c) := by
  induction rows with
  | nil => simp [rowsContainCell] at h
  | cons row rest ih =>
    by_cases hrow : row.c.any (fun c => c.r == name) = true
    · obtain ⟨c, h1, h2⟩ := find?_updateFirstCell_self hf hrow
      have hupd : updateFirstRow (row :: rest) name f =
          { row with c := updateFirstCell row.c name f } :: rest := by
        simp [updateFirstRow, hrow]
      refine ⟨c, ?_, ?_⟩
      · simp only [findCellRows, h1]
      · rw [hupd]
        simp only [findCellRows, h2]
    · have hb : row.c.any (fun c => c.r == name) = false := by
        cases hcb : row.c.any (fun c => c.r == name) with
        | true => exact absurd hcb hrow
        | false => rfl
      have hnone : row.c.find? (fun c => c.r == name) = none := by
        rw [List.find?_eq_none]
        intro x hx hpx
        exact hrow (List.any_eq_true.mpr ⟨x, hx, hpx⟩)
      have hrest : rowsContainCell rest name = true := by
        rw [rowsContainCell, List.any_cons, hb] at h
        simpa [rowsContainCell] using h
      obtain ⟨c, h1, h2⟩ := ih hrest
      have hupd : updateFirstRow (row :: rest) name f =
          row :: updateFirstRow rest name f := by
        simp [updateFirstRow, hrow]
      refine ⟨c, ?_, ?_⟩
      · simp only [findCellRows, hnone, h1]
      · rw [hupd]
        simp only [findCellRows, hnone, h2]

theorem findCellRows_updateFirstRow_ne {name name' : String} (hne : name' ≠ name)
    {f : Cell → Cell} (hf : ∀ c, (f c).r = c.r) (rows : List Row) :
    findCellRows (updateFirstRow rows name f) name' = findCellRows rows name' := by
  induction rows with
  | nil => rfl
  | cons row rest ih =>
    by_cases hrow : row.c.any (fun c => c.r == name) = true
    · have hupd : updateFirstRow (row :: rest) name f =
          { row with c := updateFirstCell row.c name f } :: rest := by
        simp [updateFirstRow, hrow]
      rw [hupd]
      simp only [findCellRows]
      rw [find?_updateFirstCell_ne hne hf]
    · have hupd : updateFirstRow (row :: rest) name f =
          row :: updateFirstRow rest name f := by
        simp [updateFirstRow, hrow]
      rw [hupd]
      simp only [findCellRows]
      rw [ih]

theorem rowsContainCell_of_findCellRows {rows : List Row} {name : String} {c : Cell}
    (h : findCellRows rows name = some c) : rowsContainCell rows name = true := by
  induction rows with
  | nil => simp [findCellRows] at h
  | cons row rest ih =>
    cases hr : row.c.find? (fun c => c.r == name) with
    | some c' =>
      have hmem := List.mem_of_find?_eq_some hr
      have hp := List.find?_some hr
      exact List.any_eq_true.mpr ⟨row, by simp, List.any_eq_true.mpr ⟨c', hmem, hp⟩⟩
    | none =>
      simp only [findCellRows, hr] at h
      have := ih h
      rw [rowsContainCell, List.any_cons]
      rw [rowsContainCell] at this
      simp [this]

theorem map_r_updateFirstRow (rows : List Row) (name : String) (f : Cell → Cell) :
    (updateFirstRow rows name f).map Row.r = rows.map Row.r := by
  induction rows with
  | nil => rfl
  | cons row rest ih =>
    by_cases hrow : row.c.any (fun c => c.r == name) = true
    · simp [updateFirstRow, hrow]
    · simp [updateFirstRow, hrow, ih]

/-- After the structural phase, some row always contains the target cell. -/
theorem rowsContainCell_rows1Of (st : SheetState) (name : String) :
    rowsContainCell (rows1Of st name) name = true := by
  by_cases h : rowsContainCell st.rows name = true
  · rw [rows1Of, if_pos h]
    exact h
  · rw [rows1Of, if_neg h]
    rw [rowsContainCell, List.any_append]
    have hone : ([{ r := parseRowNum name, c := [{ r := name }] }] : List Row).any
        (fun row => row.c.any (fun c => c.r == name)) = true := by
      simp
    rw [hone, Bool.or_true]

/-! ### Unfolding helpers for the two operations -/

theorem getCell_of_valid {name : String} (h : validName name = true) (st : SheetState) :
    getCell st name = Except.ok (getCellVal st name) := by
  simp [getCell, h]

theorem setCell_str_eq (st : SheetState) {name : String} (s : String)
    (h : validName name = true) :
    setCell st name (JsVal.str s) SetType.string =
      Except.ok ⟨updateFirstRow (rows1Of st name) name
          (strMut (getSharedString st.sst (curOf st name) s).1),
        (getSharedString st.sst (curOf st name) s).2⟩ := by
  simp [setCell, h]

theorem setCell_num_eq (st : SheetState) {name : String} (n : Int)
    (h : validName name = true) :
    setCell st name (JsVal.num n) SetType.string =
      Except.ok ⟨updateFirstRow (rows1Of st name) name (numMut n), st.sst⟩ := by
  simp [setCell, h]

theorem setCell_formula_eq (st : SheetState) {name : String} (value : JsVal)
    (h : validName name = true) :
    setCell st name value SetType.formula =
      Except.ok ⟨updateFirstRow (rows1Of st name) name (formulaMut value), st.sst⟩ := by
  simp [setCell, h]

theorem strMut_r (i : Nat) : ∀ c, (strMut i c).r = c.r := fun _ => rfl

theorem numMut_r (n : Int) : ∀ c, (numMut n c).r = c.r := fun _ => rfl

theorem formulaMut_r (value : JsVal) : ∀ c, (formulaMut value c).r = c.r := fun _ => rfl

/-- Resolving a found cell that stores a numeric shared-string offset. -/
theorem getCellVal_resolve {st : SheetState} {name : String} {c : Cell} {i : Nat}
    (hfind : findCellRows st.rows name = some c)
    (hv : c.v = some (JsVal.num (Int.ofNat i))) :
    getCellVal st name = orNull st.sst[i]? := by
  simp only [getCellVal, hfind, hv, jsIndexLookup]
  have hnn : ¬ Int.ofNat i < 0 := Int.not_lt.mpr (Int.ofNat_nonneg _)
  rw [if_neg hnn]
  rfl

/-! ### Claim C1 -/

/-- Claim C1 (amended): for every sheet state, every valid cell address and
every *nonempty* string value V, `setCell` with the default string kind
followed by `getCell` on the same address returns V.  (For V = "" the read
path's `|| null` collapses the stored empty string to absence, so the claim
as stated fails; see the counterexample.) -/
theorem setCell_getCell_roundtrip_nonempty (st : SheetState) (name V : String)
    (hname : validName name = true) (hV : V ≠ "") :
    ∃ st', setCell st name (JsVal.str V) SetType.string = Except.ok st' ∧
      getCell st' name = Except.ok (some V) := by
  refine ⟨⟨updateFirstRow (rows1Of st name) name
      (strMut (getSharedString st.sst (curOf st name) V).1),
    (getSharedString st.sst (curOf st name) V).2⟩, ?_, ?_⟩
  · simp [setCell, hname]
  · obtain ⟨c, hc1, hc2⟩ :=
      findCellRows_updateFirstRow_self
        (show ∀ c, (strMut (getSharedString st.sst (curOf st name) V).1 c).r = c.r
          from fun _ => rfl)
        (rowsContainCell_rows1Of st name)
    simp only [getCell, hname, Bool.not_true]
    rw [if_neg (by simp)]
    simp only [getCellVal, hc2]
    simp only [strMut, jsIndexLookup]
    have hnn : ¬ Int.ofNat (getSharedString st.sst (curOf st name) V).1 < 0 := by
      exact Int.not_lt.mpr (Int.ofNat_nonneg _)
    rw [if_neg hnn]
    have ht : (Int.ofNat (getSharedString st.sst (curOf st name) V).1).toNat =
        (getSharedString st.sst (curOf st name) V).1 := rfl
    rw [ht, getSharedString_resolve]
    simp [orNull, hV]

/-- Claim C1, witness for the amended theorem at a concrete input. -/
theorem setCell_getCell_roundtrip_nonempty_witness :
    ∃ st', setCell { rows := [], sst := [] } "A1" (JsVal.str "hello") SetType.string =
        Except.ok st' ∧
      getCell st' "A1" = Except.ok (some "hello") :=
  setCell_getCell_roundtrip_nonempty { rows := [], sst := [] } "A1" "hello"
    (by decide) (by decide)

/-- Claim C1, counterexample to the claim as stated: with V = "" the write
stores an offset to the empty string, but `getCell` collapses the falsy
resolved value to absence, so the round trip returns `null` instead of V. -/
theorem setCell_getCell_empty_string_cex :
    setCell ⟨[], []⟩ "A1" (JsVal.str "") SetType.string =
      Except.ok ⟨[⟨1, [⟨"A1", some (JsVal.num 0), none, some "s"⟩]⟩], [""]⟩ ∧
    getCell ⟨[⟨1, [⟨"A1", some (JsVal.num 0), none, some "s"⟩]⟩], [""]⟩ "A1" =
      Except.ok none ∧
    (Except.ok (none : Option String) : Except String (Option String)) ≠
      Except.ok (some "") := by
  exact ⟨by decide, by decide, by decide⟩

/-! ### Claim C2 -/

/-- Claim C2 (amended): if cells A1 and A2 both resolve to the text "foo"
through the same shared-string offset `i`, and `i` is the *first* offset of
the table whose text is "foo" (which is how the write path produces the
sharing), then `setCell("A1", "bar")` overwrites that shared entry in
place, so `getCell("A2")` — and `getCell("A1")` — subsequently return
"bar".  (Without the first-occurrence condition the dedup scan can repoint
a different, earlier entry; see the counterexample.) -/
theorem shared_offset_alias_write (st : SheetState) (i : Nat) (c1 c2 : Cell)
    (hA1 : findCellRows st.rows "A1" = some c1)
    (h1v : c1.v = some (JsVal.num (Int.ofNat i)))
    (hA2 : findCellRows st.rows "A2" = some c2)
    (h2v : c2.v = some (JsVal.num (Int.ofNat i)))
    (hfoo : indexOfFirst st.sst "foo" = some i) :
    getCell st "A1" = Except.ok (some "foo") ∧
    getCell st "A2" = Except.ok (some "foo") ∧
    ∃ st', setCell st "A1" (JsVal.str "bar") SetType.string = Except.ok st' ∧
      st'.sst = st.sst.set i "bar" ∧
      getCell st' "A2" = Except.ok (some "bar") ∧
      getCell st' "A1" = Except.ok (some "bar") := by
  have hv1 : validName "A1" = true := by decide
  have hv2 : validName "A2" = true := by decide
  have hsome : st.sst[i]? = some "foo" := indexOfFirst_getElem? hfoo
  have hlt : i < st.sst.length := indexOfFirst_lt_length hfoo
  have hread1 : getCellVal st "A1" = some "foo" := by
    rw [getCellVal_resolve hA1 h1v, hsome]
    decide
  have hread2 : getCellVal st "A2" = some "foo" := by
    rw [getCellVal_resolve hA2 h2v, hsome]
    decide
  refine ⟨by rw [getCell_of_valid hv1, hread1], by rw [getCell_of_valid hv2, hread2], ?_⟩
  have hcontain : rowsContainCell st.rows "A1" = true := rowsContainCell_of_findCellRows hA1
  have hrows1 : rows1Of st "A1" = st.rows := by rw [rows1Of, if_pos hcontain]
  have hst1 : ({ rows := rows1Of st "A1", sst := st.sst } : SheetState) = st := by
    rw [hrows1]
  have hcur : curOf st "A1" = "foo" := by
    rw [curOf, hst1, hread1]
    rfl
  have hup : getSharedString st.sst (curOf st "A1") "bar" = (i, st.sst.set i "bar") := by
    rw [hcur]
    simp only [getSharedString, hfoo]
  have hset : setCell st "A1" (JsVal.str "bar") SetType.string =
      Except.ok ⟨updateFirstRow st.rows "A1" (strMut i), st.sst.set i "bar"⟩ := by
    rw [setCell_str_eq st "bar" hv1, hup, hrows1]
  refine ⟨⟨updateFirstRow st.rows "A1" (strMut i), st.sst.set i "bar"⟩, hset, rfl, ?_, ?_⟩
  · rw [getCell_of_valid hv2]
    have hfind2 : findCellRows (updateFirstRow st.rows "A1" (strMut i)) "A2" = some c2 := by
      rw [findCellRows_updateFirstRow_ne (by decide) (strMut_r i), hA2]
    have := @getCellVal_resolve
      ⟨updateFirstRow st.rows "A1" (strMut i), st.sst.set i "bar"⟩ "A2" c2 i hfind2 h2v
    rw [this, List.getElem?_set_self hlt]
    decide
  · rw [getCell_of_valid hv1]
    obtain ⟨c, hc1, hc2⟩ := findCellRows_updateFirstRow_self (strMut_r i) hcontain
    have hfind1 : findCellRows (updateFirstRow st.rows "A1" (strMut i)) "A1" =
        some (strMut i c) := hc2
    have := @getCellVal_resolve
      ⟨updateFirstRow st.rows "A1" (strMut i), st.sst.set i "bar"⟩ "A1" (strMut i c) i
      hfind1 rfl
    rw [this, List.getElem?_set_self hlt]
    decide

/-- Claim C2, witness for the amended theorem: the two-cell sheet in which
A1 and A2 share offset 0 of the one-entry table holding "foo". -/
theorem shared_offset_alias_write_witness :
    getCell ⟨[⟨1, [⟨"A1", some (JsVal.num 0), none, some "s"⟩]⟩,
        ⟨2, [⟨"A2", some (JsVal.num 0), none, some "s"⟩]⟩], ["foo"]⟩ "A1" =
      Except.ok (some "foo") ∧
    getCell ⟨[⟨1, [⟨"A1", some (JsVal.num 0), none, some "s"⟩]⟩,
        ⟨2, [⟨"A2", some (JsVal.num 0), none, some "s"⟩]⟩], ["foo"]⟩ "A2" =
      Except.ok (some "foo") ∧
    ∃ st', setCell ⟨[⟨1, [⟨"A1", some (JsVal.num 0), none, some "s"⟩]⟩,
        ⟨2, [⟨"A2", some (JsVal.num 0), none, some "s"⟩]⟩], ["foo"]⟩ "A1"
        (JsVal.str "bar") SetType.string = Except.ok st' ∧
      st'.sst = (["foo"] : List String).set 0 "bar" ∧
      getCell st' "A2" = Except.ok (some "bar") ∧
      getCell st' "A1" = Except.ok (some "bar") :=
  shared_offset_alias_write
    ⟨[⟨1, [⟨"A1", some (JsVal.num 0), none, some "s"⟩]⟩,
      ⟨2, [⟨"A2", some (JsVal.num 0), none, some "s"⟩]⟩], ["foo"]⟩ 0
    ⟨"A1", some (JsVal.num 0), none, some "s"⟩
    ⟨"A2", some (JsVal.num 0), none, some "s"⟩
    (by decide) (by decide) (by decide) (by decide) (by decide)

/-- Claim C2, counterexample to the claim as stated: a write history (A2
written after A1) after which A1 and A2 both hold "foo" through the same
offset 1, but "foo" also occupies offset 0; `setCell("A1", "bar")` then
repoints offset 0, not the shared offset 1, and `getCell("A2")` still
returns "foo", not "bar". -/
theorem shared_offset_alias_write_cex :
    setCell ⟨[⟨1, [⟨"C1", some (JsVal.num 0), none, some "s"⟩]⟩], ["x"]⟩
        "A1" (JsVal.str "foo") SetType.string =
      Except.ok ⟨[⟨1, [⟨"C1", some (JsVal.num 0), none, some "s"⟩]⟩,
        ⟨1, [⟨"A1", some (JsVal.num 1), none, some "s"⟩]⟩], ["x", "foo"]⟩ ∧
    setCell ⟨[⟨1, [⟨"C1", some (JsVal.num 0), none, some "s"⟩]⟩,
        ⟨1, [⟨"A1", some (JsVal.num 1), none, some "s"⟩]⟩], ["x", "foo"]⟩
        "A2" (JsVal.str "foo") SetType.string =
      Except.ok ⟨[⟨1, [⟨"C1", some (JsVal.num 0), none, some "s"⟩]⟩,
        ⟨1, [⟨"A1", some (JsVal.num 1), none, some "s"⟩]⟩,
        ⟨2, [⟨"A2", some (JsVal.num 2), none, some "s"⟩]⟩], ["x", "foo", "foo"]⟩ ∧
    setCell ⟨[⟨1, [⟨"C1", some (JsVal.num 0), none, some "s"⟩]⟩,
        ⟨1, [⟨"A1", some (JsVal.num 1), none, some "s"⟩]⟩,
        ⟨2, [⟨"A2", some (JsVal.num 2), none, some "s"⟩]⟩], ["x", "foo", "foo"]⟩
        "A2" (JsVal.str "foo") SetType.string =
      Except.ok ⟨[⟨1, [⟨"C1", some (JsVal.num 0), none, some "s"⟩]⟩,
        ⟨1, [⟨"A1", some (JsVal.num 1), none, some "s"⟩]⟩,
        ⟨2, [⟨"A2", some (JsVal.num 1), none, some "s"⟩]⟩], ["x", "foo", "foo"]⟩ ∧
    setCell ⟨[⟨1, [⟨"C1", some (JsVal.num 0), none, some "s"⟩]⟩,
        ⟨1, [⟨"A1", some (JsVal.num 1), none, some "s"⟩]⟩,
        ⟨2, [⟨"A2", some (JsVal.num 1), none, some "s"⟩]⟩], ["x", "foo", "foo"]⟩
        "C1" (JsVal.str "foo") SetType.string =
      Except.ok ⟨[⟨1, [⟨"C1", some (JsVal.num 0), none, some "s"⟩]⟩,
        ⟨1, [⟨"A1", some (JsVal.num 1), none, some "s"⟩]⟩,
        ⟨2, [⟨"A2", some (JsVal.num 1), none, some "s"⟩]⟩], ["foo", "foo", "foo"]⟩ ∧
    getCell ⟨[⟨1, [⟨"C1", some (JsVal.num 0), none, some "s"⟩]⟩,
        ⟨1, [⟨"A1", some (JsVal.num 1), none, some "s"⟩]⟩,
        ⟨2, [⟨"A2", some (JsVal.num 1), none, some "s"⟩]⟩], ["foo", "foo", "foo"]⟩ "A1" =
      Except.ok (some "foo") ∧
    getCell ⟨[⟨1, [⟨"C1", some (JsVal.num 0), none, some "s"⟩]⟩,
        ⟨1, [⟨"A1", some (JsVal.num 1), none, some "s"⟩]⟩,
        ⟨2, [⟨"A2", some (JsVal.num 1), none, some "s"⟩]⟩], ["foo", "foo", "foo"]⟩ "A2" =
      Except.ok (some "foo") ∧
    setCell ⟨[⟨1, [⟨"C1", some (JsVal.num 0), none, some "s"⟩]⟩,
        ⟨1, [⟨"A1", some (JsVal.num 1), none, some "s"⟩]⟩,
        ⟨2, [⟨"A2", some (JsVal.num 1), none, some "s"⟩]⟩], ["foo", "foo", "foo"]⟩
        "A1" (JsVal.str "bar") SetType.string =
      Except.ok ⟨[⟨1, [⟨"C1", some (JsVal.num 0), none, some "s"⟩]⟩,
        ⟨1, [⟨"A1", some (JsVal.num 0), none, some "s"⟩]⟩,
        ⟨2, [⟨"A2", some (JsVal.num 1), none, some "s"⟩]⟩], ["bar", "foo", "foo"]⟩ ∧
    getCell ⟨[⟨1, [⟨"C1", some (JsVal.num 0), none, some "s"⟩]⟩,
        ⟨1, [⟨"A1", some (JsVal.num 0), none, some "s"⟩]⟩,
        ⟨2, [⟨"A2", some (JsVal.num 1), none, some "s"⟩]⟩], ["bar", "foo", "foo"]⟩ "A2" =
      Except.ok (some "foo") ∧
    (Except.ok (some "foo") : Except String (Option String)) ≠ Except.ok (some "bar") := by
  exact ⟨by decide, by decide, by decide, by decide, by decide, by decide, by decide,
    by decide, by decide⟩

/-! ### Claim C3 -/

/-- Claim C3 (amended): overwriting a string cell with a formula clears the
literal value and the type marker; but overwriting a formula cell with a
string, while it sets the shared-string marker and offset, leaves the
residual formula field in place (the string branch never deletes `f`), so
the two kinds *can* coexist on one cell. -/
theorem overwrite_kind_fields (st : SheetState) (name : String) (F : JsVal) (s : String)
    (hname : validName name = true) :
    (∃ st1 st2 c i, setCell st name F SetType.formula = Except.ok st1 ∧
       setCell st1 name (JsVal.str s) SetType.string = Except.ok st2 ∧
       findCellRows st2.rows name = some c ∧
       c.v = some (JsVal.num (Int.ofNat i)) ∧ c.t = some "s" ∧ c.f = some F) ∧
    (∃ st1 st2 c, setCell st name (JsVal.str s) SetType.string = Except.ok st1 ∧
       setCell st1 name F SetType.formula = Except.ok st2 ∧
       findCellRows st2.rows name = some c ∧
       c.v = none ∧ c.t = none ∧ c.f = some F) := by
  constructor
  · have hset1 := setCell_formula_eq st F hname
    obtain ⟨c0, hc0, hcf⟩ :=
      findCellRows_updateFirstRow_self (formulaMut_r F) (rowsContainCell_rows1Of st name)
    have hfind1 : findCellRows
        (⟨updateFirstRow (rows1Of st name) name (formulaMut F), st.sst⟩ : SheetState).rows
        name = some (formulaMut F c0) := hcf
    have hcontain1 : rowsContainCell
        (⟨updateFirstRow (rows1Of st name) name (formulaMut F), st.sst⟩ : SheetState).rows
        name = true := rowsContainCell_of_findCellRows hfind1
    have hset2 := setCell_str_eq
      (⟨updateFirstRow (rows1Of st name) name (formulaMut F), st.sst⟩ : SheetState) s hname
    obtain ⟨c1, hc1, hcs⟩ :=
      findCellRows_updateFirstRow_self
        (strMut_r (getSharedString
          (⟨updateFirstRow (rows1Of st name) name (formulaMut F), st.sst⟩ : SheetState).sst
          (curOf (⟨updateFirstRow (rows1Of st name) name (formulaMut F), st.sst⟩ : SheetState)
            name) s).1)
        (rowsContainCell_rows1Of
          (⟨updateFirstRow (rows1Of st name) name (formulaMut F), st.sst⟩ : SheetState) name)
    have hc1' : c1 = formulaMut F c0 := by
      rw [rows1Of, if_pos hcontain1, hfind1] at hc1
      exact (Option.some.inj hc1).symm
    refine ⟨_, _, _, _, hset1, hset2, hcs, rfl, rfl, ?_⟩
    rw [hc1']
    rfl
  · have hset1 := setCell_str_eq st s hname
    have hset2 := setCell_formula_eq
      (⟨updateFirstRow (rows1Of st name) name
          (strMut (getSharedString st.sst (curOf st name) s).1),
        (getSharedString st.sst (curOf st name) s).2⟩ : SheetState) F hname
    obtain ⟨c1, hc1, hcf⟩ :=
      findCellRows_updateFirstRow_self (formulaMut_r F)
        (rowsContainCell_rows1Of
          (⟨updateFirstRow (rows1Of st name) name
              (strMut (getSharedString st.sst (curOf st name) s).1),
            (getSharedString st.sst (curOf st name) s).2⟩ : SheetState) name)
    exact ⟨_, _, formulaMut F c1, hset1, hset2, hcf, rfl, rfl, rfl⟩

/-- Claim C3, witness for the amended theorem at a concrete input. -/
theorem overwrite_kind_fields_witness :
    (∃ st1 st2 c i, setCell ⟨[], []⟩ "A1" (JsVal.str "F") SetType.formula = Except.ok st1 ∧
       setCell st1 "A1" (JsVal.str "hello") SetType.string = Except.ok st2 ∧
       findCellRows st2.rows "A1" = some c ∧
       c.v = some (JsVal.num (Int.ofNat i)) ∧ c.t = some "s" ∧ c.f = some (JsVal.str "F")) ∧
    (∃ st1 st2 c, setCell ⟨[], []⟩ "A1" (JsVal.str "hello") SetType.string = Except.ok st1 ∧
       setCell st1 "A1" (JsVal.str "F") SetType.formula = Except.ok st2 ∧
       findCellRows st2.rows "A1" = some c ∧
       c.v = none ∧ c.t = none ∧ c.f = some (JsVal.str "F")) :=
  overwrite_kind_fields ⟨[], []⟩ "A1" (JsVal.str "F") "hello" (by decide)

/-- Claim C3, counterexample to the claim as stated: writing a formula to
A1 and then overwriting A1 with a string leaves the formula field behind
alongside the shared-string marker. -/
theorem overwrite_kind_fields_cex :
    setCell ⟨[], []⟩ "A1" (JsVal.str "B1+B2") SetType.formula =
      Except.ok ⟨[⟨1, [⟨"A1", none, some (JsVal.str "B1+B2"), none⟩]⟩], []⟩ ∧
    setCell ⟨[⟨1, [⟨"A1", none, some (JsVal.str "B1+B2"), none⟩]⟩], []⟩
        "A1" (JsVal.str "hello") SetType.string =
      Except.ok ⟨[⟨1, [⟨"A1", some (JsVal.num 0), some (JsVal.str "B1+B2"),
        some "s"⟩]⟩], ["hello"]⟩ ∧
    findCellRows [⟨1, [⟨"A1", some (JsVal.num 0), some (JsVal.str "B1+B2"), some "s"⟩]⟩]
        "A1" =
      some ⟨"A1", some (JsVal.num 0), some (JsVal.str "B1+B2"), some "s"⟩ ∧
    (some (JsVal.str "B1+B2") : Option JsVal) ≠ none := by
  exact ⟨by decide, by decide, by decide, by decide⟩

/-! ### Claim C4 -/

/-- Claim C4 (amended): `getCell` never inspects the type marker, so what a
non-string cell returns depends on its raw `v`: a formula-written cell (no
`v`) reads as absent, and a numeric-written cell reads as absent whenever
its value is not an in-range index of the shared-string table (negative, or
at least the table length).  When the numeric value *is* an in-range index,
the table entry at that offset is exposed — see the counterexample. -/
theorem getCell_non_string_kinds (st : SheetState) (name : String) (F : JsVal) (n : Int)
    (hname : validName name = true) :
    (∃ st1, setCell st name F SetType.formula = Except.ok st1 ∧
       getCell st1 name = Except.ok none) ∧
    ((n < 0 ∨ st.sst.length ≤ n.toNat) →
      ∃ st1, setCell st name (JsVal.num n) SetType.string = Except.ok st1 ∧
        getCell st1 name = Except.ok none) := by
  constructor
  · have hset1 := setCell_formula_eq st F hname
    obtain ⟨c0, hc0, hcf⟩ :=
      findCellRows_updateFirstRow_self (formulaMut_r F) (rowsContainCell_rows1Of st name)
    refine ⟨_, hset1, ?_⟩
    rw [getCell_of_valid hname]
    simp only [getCellVal, hcf]
    rfl
  · intro hn
    have hset1 := setCell_num_eq st n hname
    obtain ⟨c0, hc0, hcf⟩ :=
      findCellRows_updateFirstRow_self (numMut_r n) (rowsContainCell_rows1Of st name)
    refine ⟨_, hset1, ?_⟩
    rw [getCell_of_valid hname]
    simp only [getCellVal, hcf]
    have hj : jsIndexLookup st.sst (some (JsVal.str (jsNumToString n))) = none := by
      by_cases hneg : n < 0
      · rw [jsNumToString, if_pos hneg]
        simp only [jsIndexLookup, decodeIndex_neg]
      · have hlen : st.sst.length ≤ n.toNat := by
          cases hn with
          | inl h => exact absurd h hneg
          | inr h => exact h
        rw [jsNumToString, if_neg hneg]
        simp only [jsIndexLookup, decodeIndex_decRepr]
        have hna : n.natAbs = n.toNat := by omega
        rw [hna]
        exact List.getElem?_eq_none hlen
    have hv : (numMut n c0).v = some (JsVal.str (jsNumToString n)) := rfl
    rw [hv, hj]
    rfl

/-- Claim C4, witness for the amended theorem at concrete inputs: a
formula cell reads absent, and a numeric cell whose value exceeds the
table length reads absent. -/
theorem getCell_non_string_kinds_witness :
    (∃ st1, setCell ⟨[], []⟩ "A1" (JsVal.str "F") SetType.formula = Except.ok st1 ∧
       getCell st1 "A1" = Except.ok none) ∧
    (∃ st1, setCell ⟨[], []⟩ "A1" (JsVal.num 5) SetType.string = Except.ok st1 ∧
       getCell st1 "A1" = Except.ok none) :=
  ⟨(getCell_non_string_kinds ⟨[], []⟩ "A1" (JsVal.str "F") 5 (by decide)).1,
   (getCell_non_string_kinds ⟨[], []⟩ "A1" (JsVal.str "F") 5 (by decide)).2
     (Or.inr (by decide))⟩

/-- Claim C4, counterexample to the claim as stated: a numeric cell whose
value 0 is an in-range table index is exposed through the string read path
— `getCell` returns the shared string "foo" instead of absent. -/
theorem getCell_numeric_exposed_cex :
    setCell ⟨[], []⟩ "A1" (JsVal.str "foo") SetType.string =
      Except.ok ⟨[⟨1, [⟨"A1", some (JsVal.num 0), none, some "s"⟩]⟩], ["foo"]⟩ ∧
    setCell ⟨[⟨1, [⟨"A1", some (JsVal.num 0), none, some "s"⟩]⟩], ["foo"]⟩
        "B1" (JsVal.num 0) SetType.string =
      Except.ok ⟨[⟨1, [⟨"A1", some (JsVal.num 0), none, some "s"⟩]⟩,
        ⟨1, [⟨"B1", some (JsVal.str "0"), none, none⟩]⟩], ["foo"]⟩ ∧
    getCell ⟨[⟨1, [⟨"A1", some (JsVal.num 0), none, some "s"⟩]⟩,
        ⟨1, [⟨"B1", some (JsVal.str "0"), none, none⟩]⟩], ["foo"]⟩ "B1" =
      Except.ok (some "foo") ∧
    (Except.ok (some "foo") : Except String (Option String)) ≠ Except.ok none := by
  exact ⟨by decide, by decide, by decide, by decide⟩

/-! ### Claim C5 -/

/-- Every `setCell` branch succeeds with rows of the shape
`updateFirstRow (rows1Of st name) name f` for an address-preserving `f`. -/
theorem setCell_rows_shape (st : SheetState) (name : String) (value : JsVal) (ty : SetType)
    (h : validName name = true) :
    ∃ f sst', (∀ c, (f c).r = c.r) ∧
      setCell st name value ty = Except.ok ⟨updateFirstRow (rows1Of st name) name f, sst'⟩ := by
  cases ty with
  | formula => exact ⟨formulaMut value, st.sst, formulaMut_r value, setCell_formula_eq st value h⟩
  | string =>
    cases value with
    | num n => exact ⟨numMut n, st.sst, numMut_r n, setCell_num_eq st n h⟩
    | str s =>
      exact ⟨strMut (getSharedString st.sst (curOf st name) s).1,
        (getSharedString st.sst (curOf st name) s).2,
        strMut_r (getSharedString st.sst (curOf st name) s).1, setCell_str_eq st s h⟩

/-- Claim C5 (amended): `setCell` locates its target row as the first row
*containing a cell whose address equals the requested address*, not by the
numeric row identifier.  When some row contains the address, no row entry
is added and every row identifier is unchanged; when no row contains the
address, a new row carrying the address's numeric row component is
appended even if a row with that identifier already exists — so writing a
new cell into an existing row creates a second row entry with the same
identifier (see the counterexample). -/
theorem setCell_row_location (st : SheetState) (name : String) (value : JsVal) (ty : SetType)
    (hname : validName name = true) :
    (rowsContainCell st.rows name = true →
      ∃ st', setCell st name value ty = Except.ok st' ∧
        st'.rows.map Row.r = st.rows.map Row.r) ∧
    (rowsContainCell st.rows name = false →
      ∃ st', setCell st name value ty = Except.ok st' ∧
        st'.rows.map Row.r = st.rows.map Row.r ++ [parseRowNum name]) := by
  obtain ⟨f, sst', hf, hset⟩ := setCell_rows_shape st name value ty hname
  constructor
  · intro hcont
    refine ⟨_, hset, ?_⟩
    have : rows1Of st name = st.rows := by rw [rows1Of, if_pos hcont]
    rw [map_r_updateFirstRow, this]
  · intro hcont
    refine ⟨_, hset, ?_⟩
    have : rows1Of st name = st.rows ++ [{ r := parseRowNum name, c := [{ r := name }] }] := by
      rw [rows1Of, if_neg (by simp [hcont])]
    rw [map_r_updateFirstRow, this, List.map_append]
    rfl

/-- Claim C5, witness for the amended theorem at a concrete input (the
fresh-row branch on an empty sheet). -/
theorem setCell_row_location_witness :
    ∃ st', setCell ⟨[], []⟩ "A1" (JsVal.str "x") SetType.string = Except.ok st' ∧
      st'.rows.map Row.r = ([] : List Row).map Row.r ++ [parseRowNum "A1"] :=
  (setCell_row_location ⟨[], []⟩ "A1" (JsVal.str "x") SetType.string (by decide)).2
    (by decide)

/-- Claim C5, counterexample to the claim as stated: row 1 exists (holding
only B1), yet writing A1 appends a second row entry with the same
identifier 1 instead of reusing the existing row. -/
theorem setCell_duplicate_row_cex :
    setCell ⟨[⟨1, [⟨"B1", none, none, none⟩]⟩], []⟩ "A1" (JsVal.str "x") SetType.string =
      Except.ok ⟨[⟨1, [⟨"B1", none, none, none⟩]⟩,
        ⟨1, [⟨"A1", some (JsVal.num 0), none, some "s"⟩]⟩], ["x"]⟩ ∧
    ([⟨1, [⟨"B1", none, none, none⟩]⟩] : List Row).map Row.r = [1] ∧
    ([⟨1, [⟨"B1", none, none, none⟩]⟩,
      ⟨1, [⟨"A1", some (JsVal.num 0), none, some "s"⟩]⟩] : List Row).map Row.r = [1, 1] ∧
    ([1, 1] : List Int) ≠ [1] := by
  exact ⟨by decide, by decide, by decide, by decide⟩

/-! ### Claim C6 -/

/-- Claim C6: the `_getSharedString` (upsert) contract.  If some entry's
text equals `old`, the first such entry is overwritten in place with `new`
and its offset returned: no growth, no other offset's content changed, and
with `old = new` (idempotent case) the table is completely unchanged.
Otherwise a fresh entry is appended and its offset — the pre-call length —
is returned, all prior entries untouched. -/
theorem getSharedString_spec (sst : List String) (old new : String) :
    (∀ i, indexOfFirst sst old = some i →
      getSharedString sst old new = (i, sst.set i new) ∧
      sst[i]? = some old ∧
      (sst.set i new).length = sst.length ∧
      (sst.set i new)[i]? = some new ∧
      (∀ j, j ≠ i → (sst.set i new)[j]? = sst[j]?) ∧
      (old = new → getSharedString sst old new = (i, sst))) ∧
    (indexOfFirst sst old = none →
      getSharedString sst old new = (sst.length, sst ++ [new]) ∧
      (sst ++ [new])[sst.length]? = some new ∧
      (sst ++ [new]).length = sst.length + 1 ∧
      (∀ j, j < sst.length → (sst ++ [new])[j]? = sst[j]?)) := by
  constructor
  · intro i hi
    have hlt : i < sst.length := indexOfFirst_lt_length hi
    have hsome : sst[i]? = some old := indexOfFirst_getElem? hi
    have hset : getSharedString sst old new = (i, sst.set i new) := by
      simp only [getSharedString, hi]
    refine ⟨hset, hsome, by simp, List.getElem?_set_self hlt, ?_, ?_⟩
    · intro j hj
      exact List.getElem?_set_ne (Ne.symm hj)
    · intro hold
      rw [hset, ← hold, set_self_of_getElem? hsome]
  · intro hi
    have hset : getSharedString sst old new = (sst.length, sst ++ [new]) := by
      simp only [getSharedString, hi]
    refine ⟨hset, List.getElem?_concat_length sst new, by simp, ?_⟩
    intro j hj
    exact List.getElem?_append_left hj

/-- Claim C6, witness: an overwrite at the matched offset 1 and an append
returning the pre-call length 2. -/
theorem getSharedString_spec_witness :
    getSharedString ["a", "b"] "b" "c" = (1, (["a", "b"] : List String).set 1 "c") ∧
    getSharedString ["a", "b"] "x" "c" = (2, ["a", "b"] ++ ["c"]) :=
  ⟨((getSharedString_spec ["a", "b"] "b" "c").1 1 (by decide)).1,
   ((getSharedString_spec ["a", "b"] "x" "c").2 (by decide)).1⟩

/-! ### Claim C7 -/

/-- Claim C7 (amended): address validation is the first step of both
operations, and an invalid address fails them before anything is touched
(in the raw model the error carries the input state unchanged); on a
sequence-normalized tree a valid `setCell` has no further failure point
and fully succeeds.  `setCell` is however *not* atomic on a raw tree whose
shared-string entry list is a collapsed singleton: targeting a
not-yet-existing cell, it throws a `TypeError` only after appending the
fresh row, leaving that structural mutation behind (see the
counterexample). -/
theorem setCell_getCell_failure_modes (st : SheetState) (rst : RawState)
    (name : String) (value : JsVal) (ty : SetType) :
    (validName name = false →
      getCell st name = Except.error "Invalid cell name" ∧
      setCell st name value ty = Except.error "Invalid cell name" ∧
      rawGetCell rst name = Except.error JsErr.invalidCell ∧
      rawSetCell rst name value ty = Except.error (JsErr.invalidCell, rst)) ∧
    (validName name = true →
      ∃ st', setCell st name value ty = Except.ok st') := by
  constructor
  · intro h
    refine ⟨?_, ?_, ?_, ?_⟩
    · simp [getCell, h]
    · simp [setCell, h]
    · simp [rawGetCell, h]
    · simp [rawSetCell, h]
  · intro h
    obtain ⟨f, sst', hf, hset⟩ := setCell_rows_shape st name value ty h
    exact ⟨_, hset⟩

/-- Claim C7, witness: an invalid address fails all four entry points with
the input state untouched, while a valid address always lets `setCell`
succeed in the normalized model. -/
theorem setCell_getCell_failure_modes_witness :
    (getCell ⟨[], []⟩ "1A" = Except.error "Invalid cell name" ∧
     setCell ⟨[], []⟩ "1A" (JsVal.str "y") SetType.string =
       Except.error "Invalid cell name" ∧
     rawGetCell ⟨OneOrMany.many [], OneOrMany.many []⟩ "1A" =
       Except.error JsErr.invalidCell ∧
     rawSetCell ⟨OneOrMany.many [], OneOrMany.many []⟩ "1A" (JsVal.str "y") SetType.string =
       Except.error (JsErr.invalidCell, ⟨OneOrMany.many [], OneOrMany.many []⟩)) ∧
    (∃ st', setCell ⟨[], []⟩ "A1" (JsVal.str "y") SetType.string = Except.ok st') :=
  ⟨(setCell_getCell_failure_modes ⟨[], []⟩ ⟨OneOrMany.many [], OneOrMany.many []⟩
      "1A" (JsVal.str "y") SetType.string).1 (by decide),
   (setCell_getCell_failure_modes ⟨[], []⟩ ⟨OneOrMany.many [], OneOrMany.many []⟩
      "A1" (JsVal.str "y") SetType.string).2 (by decide)⟩

/-- Claim C7, counterexample to the claim as stated: on a raw tree with an
empty row sequence and a collapsed single shared-string entry, a valid
`setCell` appends the fresh row and cell, then throws a `TypeError` while
reading `currentValue` — the call fails with the structural mutation left
behind, so validation is not the only thing that happens before the tree
is touched, and failure is not mutation-free. -/
theorem setCell_partial_mutation_cex :
    rawSetCell ⟨OneOrMany.many [], OneOrMany.one "x"⟩ "A1" (JsVal.str "y") SetType.string =
      Except.error (JsErr.typeError,
        ⟨OneOrMany.many [⟨1, OneOrMany.many [⟨"A1", none, none, none⟩]⟩],
          OneOrMany.one "x"⟩) ∧
    (⟨OneOrMany.many [⟨1, OneOrMany.many [⟨"A1", none, none, none⟩]⟩],
        OneOrMany.one "x"⟩ : RawState) ≠
      ⟨OneOrMany.many [], OneOrMany.one "x"⟩ := by
  exact ⟨by decide, by decide⟩

/-! ### Claim C8 -/

theorem isDigitCh_not_upper {c : Char} (h : isDigitCh c = true) : isUpperCh c = false := by
  simp only [isDigitCh, Bool.and_eq_true, decide_eq_true_eq] at h
  simp only [isUpperCh, Bool.and_eq_false_iff, decide_eq_false_iff_not]
  left
  omega

theorem takeWhile_append_run {α : Type} {p : α → Bool} {L : List α} {r : α} {R : List α}
    (hL : ∀ c ∈ L, p c = true) (hr : p r = false) :
    (L ++ r :: R).takeWhile p = L ∧ (L ++ r :: R).dropWhile p = r :: R := by
  induction L with
  | nil => simp [List.takeWhile_cons, List.dropWhile_cons, hr]
  | cons a L' ih =>
    have ha : p a = true := hL a (by simp)
    have ih' := ih (fun c hc => hL c (by simp [hc]))
    simp [List.takeWhile_cons, List.dropWhile_cons, ha, ih'.1, ih'.2]

/-- Claim C8 (amended): every address string that does not match the
regexp's grammar — one or more uppercase letters followed by one or more
decimal digits — is rejected by both operations before anything is
touched; `validName` accepts exactly that grammar.  The grammar does *not*
require the row component to be a positive integer: "A0" matches and is
accepted (see the counterexample). -/
theorem address_validation (st : SheetState) (name : String) (value : JsVal) (ty : SetType) :
    (validName name = false →
      getCell st name = Except.error "Invalid cell name" ∧
      setCell st name value ty = Except.error "Invalid cell name") ∧
    (validName name = true ↔ matchesCellRegex name) := by
  refine ⟨fun h => ⟨by simp [getCell, h], by simp [setCell, h]⟩, ?_, ?_⟩
  · intro h
    simp only [validName, Bool.and_eq_true, Bool.not_eq_true'] at h
    obtain ⟨⟨hL, hR⟩, hdig⟩ := h
    refine ⟨name.data.takeWhile isUpperCh, name.data.dropWhile isUpperCh,
      (List.takeWhile_append_dropWhile isUpperCh name.data).symm, ?_, ?_, ?_, ?_⟩
    · intro hnil
      rw [hnil] at hL
      exact absurd hL (by decide)
    · intro hnil
      rw [hnil] at hR
      exact absurd hR (by decide)
    · intro c hc
      exact List.mem_takeWhile_imp hc
    · exact List.all_eq_true.mp hdig
  · intro h
    obtain ⟨L, R, hdata, hLne, hRne, hup, hdig⟩ := h
    cases R with
    | nil => exact absurd rfl hRne
    | cons r R' =>
      have hr : isUpperCh r = false := isDigitCh_not_upper (hdig r (by simp))
      have hrun := @takeWhile_append_run Char isUpperCh L r R' hup hr
      rw [validName, hdata, hrun.1, hrun.2]
      have h1 : L.isEmpty = false := by
        cases L with
        | nil => exact absurd rfl hLne
        | cons a L' => rfl
      rw [h1]
      have h3 : (r :: R').all isDigitCh = true :=
        List.all_eq_true.mpr (hdig)
      rw [h3]
      rfl

/-- Claim C8, witness: the malformed addresses "1A", "A" and "" all fail
both operations with the validation error. -/
theorem address_validation_witness :
    (getCell ⟨[], []⟩ "1A" = Except.error "Invalid cell name" ∧
     setCell ⟨[], []⟩ "1A" (JsVal.str "v") SetType.string =
       Except.error "Invalid cell name") ∧
    (getCell ⟨[], []⟩ "A" = Except.error "Invalid cell name" ∧
     setCell ⟨[], []⟩ "A" (JsVal.str "v") SetType.string =
       Except.error "Invalid cell name") ∧
    (getCell ⟨[], []⟩ "" = Except.error "Invalid cell name" ∧
     setCell ⟨[], []⟩ "" (JsVal.str "v") SetType.string =
       Except.error "Invalid cell name") :=
  ⟨(address_validation ⟨[], []⟩ "1A" (JsVal.str "v") SetType.string).1 (by decide),
   (address_validation ⟨[], []⟩ "A" (JsVal.str "v") SetType.string).1 (by decide),
   (address_validation ⟨[], []⟩ "" (JsVal.str "v") SetType.string).1 (by decide)⟩

/-- Claim C8, counterexample to the claim as stated: "A0", whose row
component 0 is not a positive 1-based integer, is *accepted* — `getCell`
returns an ordinary absent value and `setCell` succeeds, writing a row
with identifier 0. -/
theorem address_A0_accepted_cex :
    validName "A0" = true ∧
    getCell ⟨[], []⟩ "A0" = Except.ok none ∧
    setCell ⟨[], []⟩ "A0" (JsVal.str "v") SetType.string =
      Except.ok ⟨[⟨0, [⟨"A0", some (JsVal.num 0), none, some "s"⟩]⟩], ["v"]⟩ ∧
    (Except.ok none : Except String (Option String)) ≠
      Except.error "Invalid cell name" := by
  exact ⟨by decide, by decide, by decide, by decide⟩

/-! ### Claim C9 -/

theorem sheetEntryName_injective : Function.Injective sheetEntryName := by
  intro a b h
  have hd := congrArg String.data h
  simp only [sheetEntryName, String.data_append] at hd
  have h2 := List.append_cancel_right hd
  have h3 := List.append_cancel_left h2
  have h4 := congrArg digitsVal h3
  rw [digitsVal_decRepr, digitsVal_decRepr] at h4
  omega

theorem sheetEntryName_ne_shared (i : Nat) :
    sheetEntryName i ≠ "xl/sharedStrings.xml" := by
  intro h
  have hlen := congrArg String.length h
  rw [sheetEntryName, String.length_append, String.length_append] at hlen
  have h1 : ("xl/worksheets/sheet" : String).length = 19 := by decide
  have h2 : (".xml" : String).length = 4 := by decide
  have h3 : ("xl/sharedStrings.xml" : String).length = 20 := by decide
  have h4 := decRepr_length_pos (i + 1)
  omega

/-- Entries not named like any written worksheet pass through the sheet
loop of `saveBuffer` unchanged. -/
theorem saveSheets_frame {Tree : Type} (build : Tree → String) (sheets : List (Nat × Tree))
    (f0 : String → Option String) (name : String)
    (hname : ∀ p ∈ sheets, name ≠ sheetEntryName p.1) :
    (sheets.foldl (fun f p => setEntry f (sheetEntryName p.1) (build p.2)) f0) name =
      f0 name := by
  induction sheets generalizing f0 with
  | nil => rfl
  | cons q rest ih =>
    rw [List.foldl_cons]
    rw [ih _ (fun p hp => hname p (by simp [hp]))]
    simp only [setEntry]
    rw [if_neg (hname q (by simp))]

/-- Each loaded sheet's entry holds, after the sheet loop of `saveBuffer`,
exactly the serialization of that sheet's tree. -/
theorem saveSheets_lookup {Tree : Type} (build : Tree → String) (sheets : List (Nat × Tree))
    (f0 : String → Option String) (p : Nat × Tree) (hp : p ∈ sheets)
    (hnodup : (sheets.map (fun q => sheetEntryName q.1)).Nodup) :
    (sheets.foldl (fun f q => setEntry f (sheetEntryName q.1) (build q.2)) f0)
      (sheetEntryName p.1) = some (build p.2) := by
  induction sheets generalizing f0 with
  | nil => simp at hp
  | cons q rest ih =>
    rw [List.foldl_cons]
    rcases List.mem_cons.mp hp with rfl | hmem
    · have hnotin : sheetEntryName p.1 ∉ rest.map (fun x => sheetEntryName x.1) :=
        (List.nodup_cons.mp hnodup).1
      have hnin : ∀ x ∈ rest, sheetEntryName p.1 ≠ sheetEntryName x.1 := by
        intro x hx he
        exact hnotin (by rw [he]; exact List.mem_map_of_mem _ hx)
      rw [saveSheets_frame build rest _ _ hnin]
      simp [setEntry]
    · exact ih _ hmem ((List.nodup_cons.mp hnodup).2)

/-- Claim C9: `saveBuffer` overwrites, for every loaded sheet of index
`i`, exactly the archive entry `xl/worksheets/sheet(i+1).xml` with the
serialization of the tree stored for index `i`, plus the shared-strings
entry with the serialization of the table; every other archive entry
passes through unchanged.  The hypothesis is the JS `Map` invariant that
loaded sheet indices are distinct. -/
theorem saveBuffer_frame_effect {Tree : Type} (build : Tree → String) (wb : Workbook Tree)
    (hkeys : (wb.sheets.map Prod.fst).Nodup) :
    (∀ p ∈ wb.sheets, saveBuffer build wb (sheetEntryName p.1) = some (build p.2)) ∧
    saveBuffer build wb "xl/sharedStrings.xml" = some (build wb.sharedStrings) ∧
    (∀ name, (∀ p ∈ wb.sheets, name ≠ sheetEntryName p.1) →
      name ≠ "xl/sharedStrings.xml" → saveBuffer build wb name = wb.file name) := by
  have hnodup : (wb.sheets.map (fun q => sheetEntryName q.1)).Nodup := by
    have hmm : wb.sheets.map (fun q => sheetEntryName q.1) =
        (wb.sheets.map Prod.fst).map sheetEntryName := by
      rw [List.map_map]
      rfl
    rw [hmm]
    exact hkeys.map sheetEntryName_injective
  refine ⟨?_, ?_, ?_⟩
  · intro p hp
    simp only [saveBuffer, setEntry]
    rw [if_neg (sheetEntryName_ne_shared p.1)]
    exact saveSheets_lookup build wb.sheets wb.file p hp hnodup
  · simp [saveBuffer, setEntry]
  · intro name hsheets hshared
    simp only [saveBuffer, setEntry]
    rw [if_neg hshared]
    exact saveSheets_frame build wb.sheets wb.file name hsheets

/-- Claim C9, witness: a two-sheet workbook with one untouched entry.
Sheet 0 lands in `xl/worksheets/sheet1.xml`, sheet 1 in `sheet2.xml`, the
table in `xl/sharedStrings.xml`, and `xl/styles.xml` passes through. -/
theorem saveBuffer_frame_effect_witness :
    saveBuffer (fun t => t)
      (⟨fun q => if q = "xl/styles.xml" then some "styles" else none,
        [(0, "t0"), (1, "t1")], "sst"⟩ : Workbook String) (sheetEntryName 0) =
      some "t0" ∧
    saveBuffer (fun t => t)
      (⟨fun q => if q = "xl/styles.xml" then some "styles" else none,
        [(0, "t0"), (1, "t1")], "sst"⟩ : Workbook String) "xl/sharedStrings.xml" =
      some "sst" ∧
    saveBuffer (fun t => t)
      (⟨fun q => if q = "xl/styles.xml" then some "styles" else none,
        [(0, "t0"), (1, "t1")], "sst"⟩ : Workbook String) "xl/styles.xml" =
      some "styles" :=
  ⟨(saveBuffer_frame_effect (fun t => t)
      (⟨fun q => if q = "xl/styles.xml" then some "styles" else none,
        [(0, "t0"), (1, "t1")], "sst"⟩ : Workbook String) (by decide)).1
      (0, "t0") (by decide),
   (saveBuffer_frame_effect (fun t => t)
      (⟨fun q => if q = "xl/styles.xml" then some "styles" else none,
        [(0, "t0"), (1, "t1")], "sst"⟩ : Workbook String) (by decide)).2.1,
   (saveBuffer_frame_effect (fun t => t)
      (⟨fun q => if q = "xl/styles.xml" then some "styles" else none,
        [(0, "t0"), (1, "t1")], "sst"⟩ : Workbook String) (by decide)).2.2
      "xl/styles.xml" (by decide) (by decide)⟩

/-! ### Claim C10 -/

/-- The one normalization the source does perform: `getCell`'s per-row
cell access treats a collapsed single cell exactly like a one-element
sequence, so the raw scan agrees with the scan over row-normalized data. -/
theorem rawFindCell_norm (rows : List RawRow) (name : String) :
    rawFindCell rows name = findCellRows (rows.map normRow) name := by
  induction rows with
  | nil => rfl
  | cons row rest ih =>
    cases hf : (normCells row.c).find? (fun c => c.r == name) with
    | some c => simp only [rawFindCell, findCellRows, List.map_cons, normRow, hf]
    | none =>
      simp only [rawFindCell, findCellRows, List.map_cons, normRow, hf]
      exact ih

/-- Claim C10 (amended): the only singular-vs-sequence normalizations in
the source are `getCell`'s per-row cell access and `setCell`'s row-search
predicate.  Hence `getCell` on a sequence-shaped row list and entry list
behaves as on fully normalized data even when individual rows carry a
collapsed single cell; but `setCell` hits that same collapsed single cell
with `target.c.find` and fails with a `TypeError` (state unchanged), and —
per the counterexample — a collapsed row sequence or a collapsed
shared-string entry list makes both operations fail with a `TypeError`
rather than behave as on a one-element sequence. -/
theorem singleton_normalization (tbl : List String) (rs : List RawRow) (name : String)
    (c0 : Cell) (value : JsVal) (ty : SetType) (hname : validName name = true) :
    rawGetCell ⟨OneOrMany.many rs, OneOrMany.many tbl⟩ name =
      Except.ok (getCellVal ⟨rs.map normRow, tbl⟩ name) ∧
    (c0.r = name →
      rawSetCell ⟨OneOrMany.many [⟨1, OneOrMany.one c0⟩], OneOrMany.many tbl⟩
          name value ty =
        Except.error (JsErr.typeError,
          ⟨OneOrMany.many [⟨1, OneOrMany.one c0⟩], OneOrMany.many tbl⟩)) := by
  constructor
  · simp only [rawGetCell, hname, Bool.not_true]
    rw [if_neg (by simp)]
    rw [rawFindCell_norm]
    rfl
  · intro hc0
    have hpred : (normCells (OneOrMany.one c0)).any (fun c => c.r == name) = true := by
      simp [normCells, hc0]
    simp only [rawSetCell, hname, Bool.not_true]
    rw [if_neg (by simp)]
    simp [List.findIdx?_cons, hpred]

/-- Claim C10, witness for the amended theorem: a row whose single cell
was collapsed by the codec still resolves through `getCell`, while
`setCell` on the same tree raises a type error leaving the state as it
was. -/
theorem singleton_normalization_witness :
    rawGetCell ⟨OneOrMany.many [⟨1, OneOrMany.one ⟨"A1", some (JsVal.num 0), none,
        some "s"⟩⟩], OneOrMany.many ["foo"]⟩ "A1" =
      Except.ok (getCellVal ⟨([⟨1, OneOrMany.one ⟨"A1", some (JsVal.num 0), none,
        some "s"⟩⟩] : List RawRow).map normRow, ["foo"]⟩ "A1") ∧
    rawSetCell ⟨OneOrMany.many [⟨1, OneOrMany.one ⟨"A1", some (JsVal.num 0), none,
        some "s"⟩⟩], OneOrMany.many ["foo"]⟩ "A1" (JsVal.str "bar") SetType.string =
      Except.error (JsErr.typeError,
        ⟨OneOrMany.many [⟨1, OneOrMany.one ⟨"A1", some (JsVal.num 0), none,
          some "s"⟩⟩], OneOrMany.many ["foo"]⟩) :=
  ⟨(singleton_normalization ["foo"]
      [⟨1, OneOrMany.one ⟨"A1", some (JsVal.num 0), none, some "s"⟩⟩] "A1"
      ⟨"A1", some (JsVal.num 0), none, some "s"⟩ (JsVal.str "bar") SetType.string
      (by decide)).1,
   (singleton_normalization ["foo"]
      [⟨1, OneOrMany.one ⟨"A1", some (JsVal.num 0), none, some "s"⟩⟩] "A1"
      ⟨"A1", some (JsVal.num 0), none, some "s"⟩ (JsVal.str "bar") SetType.string
      (by decide)).2 (by decide)⟩

/-- Claim C10, counterexample to the claim as stated: a sheet whose row
sequence was collapsed to a bare single row, or whose shared-string entry
list was collapsed to a bare single entry, makes `getCell` (and `setCell`)
fail with a type error instead of meeting the normal contract; the
collapsed single cell makes `setCell` fail too. -/
theorem singleton_normalization_cex :
    rawGetCell ⟨OneOrMany.one ⟨1, OneOrMany.many [⟨"A1", some (JsVal.num 0), none,
        some "s"⟩]⟩, OneOrMany.many ["foo"]⟩ "A1" = Except.error JsErr.typeError ∧
    rawGetCell ⟨OneOrMany.many [⟨1, OneOrMany.many [⟨"A1", some (JsVal.num 0), none,
        some "s"⟩]⟩], OneOrMany.one "foo"⟩ "A1" = Except.error JsErr.typeError ∧
    rawSetCell ⟨OneOrMany.one ⟨1, OneOrMany.many [⟨"A1", some (JsVal.num 0), none,
        some "s"⟩]⟩, OneOrMany.many ["foo"]⟩ "A1" (JsVal.str "bar") SetType.string =
      Except.error (JsErr.typeError, ⟨OneOrMany.one ⟨1, OneOrMany.many [⟨"A1",
        some (JsVal.num 0), none, some "s"⟩]⟩, OneOrMany.many ["foo"]⟩) ∧
    (Except.error JsErr.typeError : Except JsErr (Option String)) ≠
      Except.ok (some "foo") := by
  exact ⟨by decide, by decide, by decide, by decide⟩

end TinyExcel
